import Mathlib

/-!
# Verification of the multi-node cluster bootstrap orchestrator

A shallow embedding of `k8s_installer.py`: the remote execution channel
(`run_remote_command`), key distribution (`copy_ssh_key_to_server`), the
provisioning pipeline runner (`execute_remote_commands`), the join-output
parser inside `initialize_master_node`, and the orchestration flow of
`main`.  Python strings are modelled as `List Char`; the remote world is
modelled by explicit oracles describing each host's responses.
-/

namespace K8sInstaller

set_option maxRecDepth 16384

/-! ## Character-list primitives mirroring the Python string operations -/

/-- Whitespace stripped by Python `str.strip()` (the ASCII whitespace set). -/
def isPySpace (c : Char) : Bool :=
  decide (c = ' ') || decide (c = '\t') || decide (c = '\n') || decide (c = '\r') ||
  decide (c = '\x0b') || decide (c = '\x0c')

/-- Python `sub in text` restricted to a prefix position: `isPrefixB p t` is
`True` iff `t` starts with `p` (Python `str.startswith`). -/
def isPrefixB : List Char → List Char → Bool
  | [], _ => true
  | _ :: _, [] => false
  | a :: as, b :: bs => decide (a = b) && isPrefixB as bs

/-- Python `sub in text` (substring containment). -/
def containsB (pat : List Char) : List Char → Bool
  | [] => isPrefixB pat []
  | c :: rest => isPrefixB pat (c :: rest) || containsB pat rest

/-- Python `str.endswith`. -/
def isSuffixB (pat t : List Char) : Bool :=
  isPrefixB pat.reverse t.reverse

/-- Number of positions at which `pat` occurs in `t` (used to state the
"contains the prefix exactly once" part of the spec). -/
def countOccur (pat : List Char) : List Char → Nat
  | [] => if isPrefixB pat [] then 1 else 0
  | c :: rest => (if isPrefixB pat (c :: rest) then 1 else 0) + countOccur pat rest

/-- Python `str.lstrip()`. -/
def lstripW (l : List Char) : List Char := l.dropWhile isPySpace

/-- Python `str.rstrip()`. -/
def rstripW (l : List Char) : List Char := (l.reverse.dropWhile isPySpace).reverse

/-- Python `str.strip()`. -/
def stripW (l : List Char) : List Char := rstripW (lstripW l)

/-- Python `str.rstrip('\\')`: drop trailing backslashes. -/
def rstripBackslash (l : List Char) : List Char :=
  (l.reverse.dropWhile (fun c => decide (c = '\\'))).reverse

/-- Characters at which Python `str.splitlines()` breaks a line
(besides the combined `"\r\n"` sequence, handled separately). -/
def isLineBreakChar (c : Char) : Bool :=
  decide (c = '\n') || decide (c = '\r') || decide (c = '\x0b') || decide (c = '\x0c') ||
  decide (c = '\x1c') || decide (c = '\x1d') || decide (c = '\x1e') ||
  decide (c = '\x85') || decide (c = '\u2028') || decide (c = '\u2029')

/-- Worker for `splitlinesL`; `acc` holds the current line reversed. -/
def splitlinesAux : List Char → List Char → List (List Char)
  | [], acc => if acc.isEmpty then [] else [acc.reverse]
  | [c], acc =>
    if isLineBreakChar c then [acc.reverse]
    else [(c :: acc).reverse]
  | c :: d :: rest, acc =>
    if decide (c = '\r') then
      if decide (d = '\n') then acc.reverse :: splitlinesAux rest []
      else acc.reverse :: splitlinesAux (d :: rest) []
    else if isLineBreakChar c then acc.reverse :: splitlinesAux (d :: rest) []
    else splitlinesAux (d :: rest) (c :: acc)

/-- Python `str.splitlines()` (no trailing empty line). -/
def splitlinesL (raw : List Char) : List (List Char) := splitlinesAux raw []

/-! ## Join-output parser (`initialize_master_node`, lines 400-448)

The control-plane init output is scanned line by line: an anchor is a line
containing `"kubeadm join"` whose following line (when one exists) contains
`"--token"`; from the anchor, stripped lines are accumulated until a line
bearing the CA-cert-hash option terminates the buffer, with a heuristic
reset branch that discards the buffer and resumes scanning. -/

def kwJoin : List Char := "kubeadm join".data

def optToken : List Char := "--token".data

def optHash : List Char := "discovery-token-ca-cert-hash".data

def sudoWord : List Char := "sudo".data

def optStart : List Char := "--".data

def verbosityFlag : List Char := " --v=5".data

def backslashWord : List Char := "\\".data

/-- Line 410: `"kubeadm join" in line and ("--token" in lines[i+1] if i+1 < len(lines) else False)`.
The lookahead reads the following line only when one exists. -/
def anchorCondB (line : List Char) (rest : List (List Char)) : Bool :=
  containsB kwJoin line &&
    (match rest with
     | next :: _ => containsB optToken next
     | [] => false)

/-- Line 416: `line.strip().rstrip('\\').strip()`. -/
def processLine (l : List Char) : List Char := stripW (rstripBackslash (stripW l))

/-- The `for i, line in enumerate(lines)` loop of lines 409-432; `capture` is
`capture_join_command`, `buf` is `join_command_lines`; the returned list is the
value `join_command_lines` holds when the loop breaks or finishes. -/
def scanJoin : List (List Char) → Bool → List (List Char) → List (List Char)
  | [], _, buf => buf
  | line :: rest, capture, buf =>
    let capture1 := if anchorCondB line rest then true else capture
    if capture1 then
      let p := processLine line
      let buf1 := if p.isEmpty then buf else buf ++ [p]
      if containsB optHash line then buf1
      else if !(isSuffixB backslashWord (stripW line)) && decide (1 < buf1.length) then
        match rest with
        | next :: _ =>
          if containsB kwJoin next || !(isPrefixB optStart (stripW next)) then
            if buf1.any (fun l => containsB optHash l) then buf1
            else scanJoin rest false []
          else scanJoin rest capture1 buf1
        | [] => scanJoin rest capture1 buf1
      else scanJoin rest capture1 buf1
    else scanJoin rest capture1 buf

/-- Whether some position of the line list satisfies the anchor test of
line 410 (join-invocation keyword with a token-bearing next line). -/
def hasAnchorB : List (List Char) → Bool
  | [] => false
  | line :: rest => anchorCondB line rest || hasAnchorB rest

/-- Python `" ".join(join_command_lines)` (line 442). -/
def joinWithSpace : List (List Char) → List Char
  | [] => []
  | [l] => l
  | l :: l2 :: rest => l ++ ' ' :: joinWithSpace (l2 :: rest)

/-- The final `join_command_lines` produced by the scan of the raw output. -/
def joinLinesOf (raw : List Char) : List (List Char) :=
  scanJoin (splitlinesL raw) false []

/-- Lines 442-447: join the accumulated lines with single spaces, prepend
`"sudo "` when the result does not already start with `"sudo"`, and append
the verbosity flag `" --v=5"`. -/
def assembleJoinCommand (jcl : List (List Char)) : List Char :=
  (if isPrefixB sudoWord (stripW (joinWithSpace jcl)) then joinWithSpace jcl
   else sudoWord ++ ' ' :: stripW (joinWithSpace jcl)) ++ verbosityFlag

/-- Lines 407-448: the whole parse of the `kubeadm init` output, returning
`none` ("no directive found") when the scan ends without a buffer bearing
the CA-cert-hash option (line 435). -/
def parseJoinCommand (raw : List Char) : Option (List Char) :=
  if (joinLinesOf raw).isEmpty ||
      !((joinLinesOf raw).any fun l => containsB optHash l) then none
  else some (assembleJoinCommand (joinLinesOf raw))

/-! ## Remote Execution Channel (`run_remote_command`, lines 212-270)

A call on one host is abstracted by an oracle mapping the command text and
the applied timeout to what the SSH session does: deliver a result
(stdout, stderr, exit status), raise an authentication or SSH protocol
exception while connecting, or hit the channel timeout. -/

inductive ChannelOutcome where
  | result (stdout stderr : List Char) (exitStatus : Nat)
  | authException
  | sshException
  | socketTimeout
deriving DecidableEq

/-- The exceptions `run_remote_command` can raise: `subprocess.CalledProcessError`
for a non-zero exit status (line 250), `ConnectionError` for authentication and
SSH protocol failures (lines 255, 259), `TimeoutError` for `socket.timeout`
(line 263). -/
inductive RemoteError where
  | calledProcessError (exitStatus : Nat) (stdout stderr : List Char)
  | connectionError
  | timeoutError
deriving DecidableEq

/-- The remote world for one host: command text and timeout to session outcome. -/
abbrev RemoteEnv := List Char → Nat → ChannelOutcome

/-- Lines 212-270: run one command over the channel.  A result with exit
status 0 is returned as `(stdout, stderr)`; a non-zero exit status raises
`CalledProcessError` (lines 247-250); connect failures raise
`ConnectionError`; a channel timeout raises `TimeoutError`. -/
def run_remote_command (env : RemoteEnv) (command : List Char) (timeout : Nat) :
    Except RemoteError (List Char × List Char) :=
  match env command timeout with
  | ChannelOutcome.result out err status =>
    if status ≠ 0 then Except.error (RemoteError.calledProcessError status out err)
    else Except.ok (out, err)
  | ChannelOutcome.authException => Except.error RemoteError.connectionError
  | ChannelOutcome.sshException => Except.error RemoteError.connectionError
  | ChannelOutcome.socketTimeout => Except.error RemoteError.timeoutError

/-! ## Provisioning Pipeline Runner (`execute_remote_commands`, lines 274-287) -/

def aptGetWord : List Char := "apt-get".data

def aptSpaceWord : List Char := "apt ".data

/-- Line 280: `cmd_timeout = 600 if "apt-get" in cmd or "apt " in cmd else 300`. -/
def cmd_timeout (cmd : List Char) : Nat :=
  if containsB aptGetWord cmd || containsB aptSpaceWord cmd then 600 else 300

/-- Definition following the spec's words (section 4.3): the runner applies
the longer of a step's own declared timeout and the stage-level default. -/
def spec_step_timeout (declared : Option Nat) (stageDefault : Nat) : Nat :=
  match declared with
  | some t => Nat.max t stageDefault
  | none => stageDefault

/-- The per-step timeout override the source declares through the step's
command text (line 279's comment: "Add a more specific timeout for apt
commands if needed, otherwise use default"). -/
def declared_step_timeout (cmd : List Char) : Option Nat :=
  if containsB aptGetWord cmd || containsB aptSpaceWord cmd then some 600 else none

/-- The `for i, cmd in enumerate(commands_to_run)` loop of lines 277-286,
instrumented with the list of `(command, timeout)` pairs actually handed to
the channel.  `n` is the running enumerate index; on the first failing step
the loop prints `Failed command i+1/len` and re-raises, which we model as
`Except.error (i, e)` carrying the 0-based index. -/
def execStage (env : RemoteEnv) :
    Nat → List (List Char) → List (List Char × Nat) × Except (Nat × RemoteError) Unit
  | _, [] => ([], Except.ok ())
  | n, cmd :: rest =>
    match run_remote_command env cmd (cmd_timeout cmd) with
    | Except.error e => ([(cmd, cmd_timeout cmd)], Except.error (n, e))
    | Except.ok _ =>
      ((cmd, cmd_timeout cmd) :: (execStage env (n + 1) rest).1, (execStage env (n + 1) rest).2)

/-- Lines 274-287: run a stage's steps in order, aborting at the first
failure.  The first component is the observable call trace. -/
def execute_remote_commands (env : RemoteEnv) (cmds : List (List Char)) :
    List (List Char × Nat) × Except (Nat × RemoteError) Unit :=
  execStage env 0 cmds

/-! ## Key Distribution (`copy_ssh_key_to_server`, lines 141-209)

The world records how the initial local `sshpass ... ssh-copy-id` attempt
ends, how the Paramiko connection attempt ends, the remote authorized-keys
store (its list of lines; an absent file behaves like the empty list, since
`grep` then exits non-zero), and the exit status of each of the four setup
commands of lines 182-187. -/

inductive SshCopyIdOutcome where
  | success      -- ssh-copy-id exited 0
  | notFound     -- FileNotFoundError: sshpass missing (line 155)
  | failed       -- subprocess.CalledProcessError (line 157)
deriving DecidableEq

inductive ConnectOutcome where
  | ok
  | authFail     -- paramiko.AuthenticationException (line 198)
  | sshError     -- paramiko.SSHException (line 201)
  | otherError   -- any other exception (line 204)
deriving DecidableEq

structure CopyWorld where
  sshCopyId : SshCopyIdOutcome
  connect : ConnectOutcome
  pubKeyReadOk : Bool          -- the local `open(SSH_PUBLIC_KEY_PATH)` of line 170
  store : List (List Char)     -- lines of the remote `~/.ssh/authorized_keys`
  mkdirOk : Bool
  echoOk : Bool
  chmodDirOk : Bool
  chmodFileOk : Bool

/-- The exceptions the Paramiko fallback body can raise, caught by the
handlers of lines 198-206. -/
inductive CopyErr where
  | authException
  | sshException
  | otherException
deriving DecidableEq

/-- Modelled from the spec: the external `ssh-copy-id` utility (not part of
this repository) installs the public key into the host's authorized-keys
store, skipping keys already present. -/
def sshCopyIdInstall (store : List (List Char)) (key : List Char) : List (List Char) :=
  if store.any (fun l => containsB key l) then store else store ++ [key]

/-- Lines 163-196, before exception handling: connect with the password,
read the public key, `grep -qF` it in the authorized-keys store (line 174;
exit 0 iff some line contains it), and either report success without
modification or run the four setup commands in order, stopping at the
first non-zero exit status.  Returns the new store and the boolean result. -/
def copy_fallback_body (w : CopyWorld) (key : List Char) :
    Except CopyErr (List (List Char) × Bool) :=
  match w.connect with
  | ConnectOutcome.authFail => Except.error CopyErr.authException
  | ConnectOutcome.sshError => Except.error CopyErr.sshException
  | ConnectOutcome.otherError => Except.error CopyErr.otherException
  | ConnectOutcome.ok =>
    if !w.pubKeyReadOk then Except.error CopyErr.otherException
    else if w.store.any (fun l => containsB key l) then Except.ok (w.store, true)
    else if !w.mkdirOk then Except.ok (w.store, false)
    else if !w.echoOk then Except.ok (w.store, false)
    else if !w.chmodDirOk then Except.ok (w.store ++ [key], false)
    else if !w.chmodFileOk then Except.ok (w.store ++ [key], false)
    else Except.ok (w.store ++ [key], true)

/-- Lines 141-209: try `ssh-copy-id` first; on `FileNotFoundError` or
`CalledProcessError` fall back to the Paramiko method, whose every
exception is caught and converted to a `false` return (lines 198-206). -/
def copy_ssh_key_to_server (w : CopyWorld) (key : List Char) : List (List Char) × Bool :=
  match w.sshCopyId with
  | SshCopyIdOutcome.success => (sshCopyIdInstall w.store key, true)
  | _ =>
    match copy_fallback_body w key with
    | Except.ok r => r
    | Except.error _ => (w.store, false)

/-- Number of entries of the authorized-keys store equal to the key line. -/
def entryCount (key : List Char) (store : List (List Char)) : Nat :=
  store.countP (fun l => decide (l = key))

/-! ## Control-node initialization (`initialize_master_node`, lines 368-463) -/

/-- How the `kubeadm init` invocation of line 378 ends: a zero-exit result
with its stdout; a `CalledProcessError` whose output is still parsed with
`raw_output = str(e.stdout) + "\n" + str(e.stderr)` (line 387); a
`TimeoutError` (line 389); or a `ConnectionError`/other exception (line 392). -/
inductive InitOutcome where
  | completed (stdout : List Char)
  | commandFailed (stdout stderr : List Char)
  | timedOut
  | connectFailed
deriving DecidableEq

/-- Lines 396-463 after the raw output is obtained: fail on empty output,
parse the join command, then run the kubeconfig setup stage (lines 451-460,
abstracted by `kubeconfigOk`); any failure returns `None`. -/
def initFinish (kubeconfigOk : Bool) (raw : List Char) : Option (List Char) :=
  if raw.isEmpty then none
  else
    match parseJoinCommand raw with
    | none => none
    | some cmd => if kubeconfigOk then some cmd else none

/-- Lines 368-463: initialize the control node and return the join command,
or `None` on failure.  A non-zero exit of `kubeadm init` is not itself
fatal: its captured output is still parsed (lines 383-387). -/
def initialize_master_node (outcome : InitOutcome) (kubeconfigOk : Bool) :
    Option (List Char) :=
  match outcome with
  | InitOutcome.completed out => initFinish kubeconfigOk out
  | InitOutcome.commandFailed out err => initFinish kubeconfigOk (out ++ '\n' :: err)
  | InitOutcome.timedOut => none
  | InitOutcome.connectFailed => none

/-! ## Cluster Orchestrator (`main`, lines 613-780)

One control host (the script fixes `num_masters = 1`) and an ordered worker
list.  Oracles abstract the per-host outcomes: key copy, the passwordless
SSH liveness test, the four base-configuration stages of lines 684-687
(whose first failure raises and marks the host failed), CNI apply, and each
worker's join command result. -/

structure MainWorld where
  keygenOk : Bool                      -- generate_ssh_key (line 631)
  keyCopyOk : List Char → Bool         -- copy_ssh_key_to_server per host (line 650)
  sshTestOk : List Char → Bool         -- passwordless SSH test (line 657)
  provisionOk : List Char → Bool       -- lines 684-687 all succeed for the host
  initOutcome : InitOutcome
  kubeconfigOk : Bool
  cniOk : Bool                         -- install_cni_plugin; its failure is caught (line 722)
  joinOk : List Char → Bool            -- the join command's remote result per worker

inductive FatalStage where
  | keygenFailed            -- line 633
  | sshAllFailed            -- line 666
  | sshMastersFailed        -- line 674
  | provisionMastersFailed  -- line 701
  | initFailed              -- lines 713, 716
deriving DecidableEq

/-- What a run observably does: whether it aborted with
`print_critical_error` (and at which check), which workers had the join
command executed on them, and which workers joined successfully. -/
structure RunOutcome where
  fatal : Option FatalStage
  joinAttempts : List (List Char)
  joinedWorkers : List (List Char)
deriving DecidableEq

/-- `successful_ssh_setup_servers` (lines 648-663): hosts in plan order that
pass both key copy and the passwordless SSH test. -/
def sshSurvivors (w : MainWorld) (master : List Char) (workers : List (List Char)) :
    List (List Char) :=
  (master :: workers).filter fun ip => w.keyCopyOk ip && w.sshTestOk ip

/-- Line 670: `master_ips` filtered to SSH survivors. -/
def sshMasters (w : MainWorld) (master : List Char) (workers : List (List Char)) :
    List (List Char) :=
  [master].filter fun ip => decide (ip ∈ sshSurvivors w master workers)

/-- Line 671: `worker_ips` filtered to SSH survivors. -/
def sshWorkers (w : MainWorld) (master : List Char) (workers : List (List Char)) :
    List (List Char) :=
  workers.filter fun ip => decide (ip ∈ sshSurvivors w master workers)

/-- `failed_nodes_prereqs` (lines 680-694): hosts whose base configuration failed. -/
def prereqFailed (w : MainWorld) (master : List Char) (workers : List (List Char)) :
    List (List Char) :=
  (sshMasters w master workers ++ sshWorkers w master workers).filter fun ip =>
    !w.provisionOk ip

/-- Line 697: masters surviving provisioning. -/
def provMasters (w : MainWorld) (master : List Char) (workers : List (List Char)) :
    List (List Char) :=
  (sshMasters w master workers).filter fun ip =>
    !decide (ip ∈ prereqFailed w master workers)

/-- Line 698: workers surviving provisioning. -/
def provWorkers (w : MainWorld) (master : List Char) (workers : List (List Char)) :
    List (List Char) :=
  (sshWorkers w master workers).filter fun ip =>
    !decide (ip ∈ prereqFailed w master workers)

/-- Lines 495-522: a worker join returns `False` on an invalid or empty join
command (line 498), else the remote command's result. -/
def join_worker_node (w : MainWorld) (joinCommand ip : List Char) : Bool :=
  if joinCommand.isEmpty || !containsB kwJoin joinCommand then false
  else w.joinOk ip

/-- Lines 613-780 of `main` after input collection: the SSH phase, the
provisioning phase, control-node initialization, the (non-fatal) CNI step,
and the worker-join loop.  `print_critical_error` calls `sys.exit(1)`, so
each of the guarded checks aborts the run with no join attempted. -/
def mainRun (w : MainWorld) (master : List Char) (workers : List (List Char)) :
    RunOutcome :=
  if !w.keygenOk then ⟨some FatalStage.keygenFailed, [], []⟩
  else if (sshSurvivors w master workers).isEmpty then ⟨some FatalStage.sshAllFailed, [], []⟩
  else if (sshMasters w master workers).isEmpty then ⟨some FatalStage.sshMastersFailed, [], []⟩
  else if (provMasters w master workers).isEmpty then
    ⟨some FatalStage.provisionMastersFailed, [], []⟩
  else
    match initialize_master_node w.initOutcome w.kubeconfigOk with
    | none => ⟨some FatalStage.initFailed, [], []⟩
    | some jc =>
      if (provWorkers w master workers).isEmpty then ⟨none, [], []⟩
      else if !containsB kwJoin jc then ⟨none, [], []⟩
      else
        ⟨none, provWorkers w master workers,
          (provWorkers w master workers).filter fun ip => join_worker_node w jc ip⟩

/-! ## Concrete worlds and inputs used in the closed statements below -/

/-- A host on which every command exits with status 1. -/
def envNonZeroExit : RemoteEnv := fun _ _ => ChannelOutcome.result [] ("boom".data) 1

/-- A host on which every command succeeds. -/
def envAllOk : RemoteEnv := fun _ _ => ChannelOutcome.result ("ok".data) [] 0

/-- An init output whose join block carries the word `sudo` inside a flag
value, so the assembled command contains `sudo` twice. -/
def c2CounterRaw : List Char :=
  ("kubeadm join 10.0.0.1:6443 \\\n--token sudo \\\n--discovery-token-ca-cert-hash sha256:abc").data

def c2CounterCmd : List Char :=
  ("sudo kubeadm join 10.0.0.1:6443 --token sudo --discovery-token-ca-cert-hash sha256:abc --v=5").data

/-- The spec's synthetic block: anchor line, two continuation lines with
trailing continuation markers, and a terminator line bearing the
CA-cert-hash option. -/
def c2SyntheticRaw : List Char :=
  ("kubeadm join 192.168.1.10:6443 \\\n--token abcdef.0123456789abcdef \\\n--experimental-flag foo \\\n--discovery-token-ca-cert-hash sha256:1111").data

def c2SyntheticCmd : List Char :=
  ("sudo kubeadm join 192.168.1.10:6443 --token abcdef.0123456789abcdef --experimental-flag foo --discovery-token-ca-cert-hash sha256:1111 --v=5").data

/-- An init output with no anchor line at all. -/
def noAnchorRaw : List Char := ("just some diagnostics\nnothing else here").data

/-- A stage of five steps. -/
def fiveSteps : List (List Char) :=
  [("step one").data, ("step two").data, ("step three").data,
   ("step four").data, ("step five").data]

/-- A host on which exactly the third step exits non-zero. -/
def envFailStepThree : RemoteEnv := fun cmd _ =>
  if cmd = ("step three").data then ChannelOutcome.result [] ("step failed".data) 1
  else ChannelOutcome.result [] [] 0

def aptUpdateCmd : List Char := ("sudo apt-get update -y").data

/-- The generated public key line. -/
def keyLine : List Char := ("ssh-rsa AAAAB3 k8s_installer_auto_key").data

/-- `sshpass` is missing locally; the host is reachable and already has the key. -/
def copyWorldPresent : CopyWorld :=
  { sshCopyId := SshCopyIdOutcome.notFound, connect := ConnectOutcome.ok,
    pubKeyReadOk := true, store := [keyLine], mkdirOk := true, echoOk := true,
    chmodDirOk := true, chmodFileOk := true }

/-- `ssh-copy-id` failed and the Paramiko connection hits an authentication error. -/
def copyWorldAuthFail : CopyWorld :=
  { sshCopyId := SshCopyIdOutcome.failed, connect := ConnectOutcome.authFail,
    pubKeyReadOk := true, store := [], mkdirOk := true, echoOk := true,
    chmodDirOk := true, chmodFileOk := true }

def masterIp : List Char := ("10.0.0.5").data

def workerIp : List Char := ("10.0.0.7").data

/-- A `kubeadm init` output containing a well-formed join block. -/
def goodInitStdout : List Char :=
  ("[init] Using Kubernetes version\nkubeadm join 10.0.0.5:6443 \\\n--token tok123.abc \\\n--discovery-token-ca-cert-hash sha256:feed").data

def initStderrNoise : List Char := ("error execution phase wait-control-plane").data

/-- A run in which every remote operation succeeds. -/
def allOkWorld : MainWorld :=
  { keygenOk := true, keyCopyOk := fun _ => true, sshTestOk := fun _ => true,
    provisionOk := fun _ => true, initOutcome := InitOutcome.completed goodInitStdout,
    kubeconfigOk := true, cniOk := true, joinOk := fun _ => true }

/-- Same run, except `kubeadm init` exits non-zero while still printing the
join block on stdout. -/
def c9World : MainWorld :=
  { allOkWorld with initOutcome := InitOutcome.commandFailed goodInitStdout initStderrNoise }

/-- Same run, except `kubeadm init` times out. -/
def c9TimeoutWorld : MainWorld :=
  { allOkWorld with initOutcome := InitOutcome.timedOut }

/-- Same run, except key distribution fails on every host. -/
def c4World : MainWorld :=
  { allOkWorld with keyCopyOk := fun _ => false }

/-! # Lemmas -/

/-! ## Prefix and substring facts -/

theorem isPrefixB_iff : ∀ p t : List Char, isPrefixB p t = true ↔ ∃ u, t = p ++ u := by
  intro p
  induction p with
  | nil => intro t; simp [isPrefixB]
  | cons a as ih =>
    intro t
    cases t with
    | nil => simp [isPrefixB]
    | cons b bs =>
      simp only [isPrefixB, Bool.and_eq_true, decide_eq_true_eq, ih bs,
        List.cons_append, List.cons.injEq]
      constructor
      · rintro ⟨rfl, u, rfl⟩; exact ⟨u, rfl, rfl⟩
      · rintro ⟨u, rfl, rfl⟩; exact ⟨rfl, u, rfl⟩

theorem isPrefixB_self_append (p u : List Char) : isPrefixB p (p ++ u) = true :=
  (isPrefixB_iff p (p ++ u)).mpr ⟨u, rfl⟩

theorem containsB_iff : ∀ p t : List Char, containsB p t = true ↔ ∃ s u, t = s ++ p ++ u := by
  intro p t
  induction t with
  | nil =>
    simp only [containsB, isPrefixB_iff]
    constructor
    · rintro ⟨u, hu⟩
      exact ⟨[], u, by simpa using hu⟩
    · rintro ⟨s, u, hu⟩
      have h1 : s ++ p ++ u = [] := hu.symm
      have h2 := List.append_eq_nil.mp h1
      have h3 := List.append_eq_nil.mp h2.1
      exact ⟨[], by simp [h3.2]⟩
  | cons c rest ih =>
    simp only [containsB, Bool.or_eq_true, isPrefixB_iff, ih]
    constructor
    · rintro (⟨u, hu⟩ | ⟨s, u, hu⟩)
      · exact ⟨[], u, by simpa using hu⟩
      · exact ⟨c :: s, u, by simp [hu]⟩
    · rintro ⟨s, u, hu⟩
      cases s with
      | nil => exact Or.inl ⟨u, by simpa using hu⟩
      | cons d s2 =>
        refine Or.inr ⟨s2, u, ?_⟩
        have := hu
        simp only [List.cons_append, List.cons.injEq] at this
        exact this.2

theorem containsB_self (p : List Char) : containsB p p = true :=
  (containsB_iff p p).mpr ⟨[], [], by simp⟩

/-- Substring containment is preserved when the text is embedded in a
larger text. -/
theorem containsB_mono {p a b : List Char} (h : containsB p a = true)
    (hb : ∃ s u, b = s ++ a ++ u) : containsB p b = true := by
  obtain ⟨s1, u1, rfl⟩ := (containsB_iff p a).mp h
  obtain ⟨s, u, rfl⟩ := hb
  exact (containsB_iff p _).mpr ⟨s ++ s1, u1 ++ u, by simp [List.append_assoc]⟩

/-! ## Stripping facts -/

theorem exists_dropWhile_sandwich (q : Char → Bool) (l : List Char) :
    ∃ s, l = s ++ l.dropWhile q :=
  ⟨l.takeWhile q, (List.takeWhile_append_dropWhile (p := q) (l := l)).symm⟩

theorem exists_rdrop_append (q : Char → Bool) (l : List Char) :
    ∃ u, l = (l.reverse.dropWhile q).reverse ++ u := by
  refine ⟨(l.reverse.takeWhile q).reverse, ?_⟩
  conv_lhs => rw [← l.reverse_reverse,
    ← List.takeWhile_append_dropWhile (p := q) (l := l.reverse)]
  rw [List.reverse_append]

theorem stripW_sandwich (l : List Char) : ∃ s u, l = s ++ stripW l ++ u := by
  obtain ⟨s, hs⟩ := exists_dropWhile_sandwich isPySpace l
  obtain ⟨u, hu⟩ := exists_rdrop_append isPySpace (l.dropWhile isPySpace)
  refine ⟨s, u, ?_⟩
  conv_lhs => rw [hs]
  rw [List.append_assoc]
  congr 1

theorem rstripBackslash_sandwich (l : List Char) :
    ∃ s u, l = s ++ rstripBackslash l ++ u := by
  obtain ⟨u, hu⟩ := exists_rdrop_append (fun c => decide (c = '\\')) l
  exact ⟨[], u, by simpa [rstripBackslash] using hu⟩

theorem sandwich_trans {a b c : List Char} (h1 : ∃ s u, b = s ++ a ++ u)
    (h2 : ∃ s u, c = s ++ b ++ u) : ∃ s u, c = s ++ a ++ u := by
  obtain ⟨s1, u1, rfl⟩ := h1
  obtain ⟨s2, u2, rfl⟩ := h2
  exact ⟨s2 ++ s1, u1 ++ u2, by simp [List.append_assoc]⟩

theorem processLine_sandwich (l : List Char) : ∃ s u, l = s ++ processLine l ++ u := by
  have h1 := stripW_sandwich (rstripBackslash (stripW l))
  have h2 := rstripBackslash_sandwich (stripW l)
  have h3 := stripW_sandwich l
  exact sandwich_trans (sandwich_trans (by simpa [processLine] using h1) h2) h3

/-- Processing a line cannot create a substring that the original line lacked. -/
theorem containsB_processLine {p l : List Char}
    (h : containsB p (processLine l) = true) : containsB p l = true :=
  containsB_mono h (processLine_sandwich l)

theorem dropWhile_head_false {q : Char → Bool} :
    ∀ (l : List Char) {c : Char} {r : List Char}, l.dropWhile q = c :: r → q c = false := by
  intro l
  induction l with
  | nil => intro c r h; simp [List.dropWhile] at h
  | cons a as ih =>
    intro c r h
    by_cases hq : q a
    · rw [List.dropWhile_cons_of_pos hq] at h
      exact ih h
    · rw [List.dropWhile_cons_of_neg hq] at h
      cases h
      simpa using hq

/-- A nonempty processed line starts with a non-whitespace character. -/
theorem processLine_head {l : List Char} {c : Char} {r : List Char}
    (h : processLine l = c :: r) : isPySpace c = false := by
  obtain ⟨u, hu⟩ := exists_rdrop_append isPySpace (lstripW (rstripBackslash (stripW l)))
  have h' : ((lstripW (rstripBackslash (stripW l))).reverse.dropWhile isPySpace).reverse
      = c :: r := h
  rw [h'] at hu
  have h2 : lstripW (rstripBackslash (stripW l)) = c :: (r ++ u) := by simpa using hu
  have h3 : (rstripBackslash (stripW l)).dropWhile isPySpace = c :: (r ++ u) := h2
  exact dropWhile_head_false _ h3

theorem isPrefixB_append_right {p a : List Char} (b : List Char)
    (h : isPrefixB p a = true) : isPrefixB p (a ++ b) = true := by
  obtain ⟨v, rfl⟩ := (isPrefixB_iff _ _).mp h
  exact (isPrefixB_iff _ _).mpr ⟨v ++ b, by rw [List.append_assoc]⟩

theorem isSuffixB_append_self (p x : List Char) : isSuffixB p (x ++ p) = true := by
  unfold isSuffixB
  rw [List.reverse_append]
  exact isPrefixB_self_append _ _

theorem isPrefixB_of_rstripW {p j : List Char}
    (h : isPrefixB p (rstripW j) = true) : isPrefixB p j = true := by
  obtain ⟨u, hu⟩ := exists_rdrop_append isPySpace j
  obtain ⟨v, hv⟩ := (isPrefixB_iff _ _).mp h
  refine (isPrefixB_iff _ _).mpr ⟨v ++ u, ?_⟩
  conv_lhs => rw [hu]
  rw [show ((j.reverse.dropWhile isPySpace).reverse) = rstripW j from rfl, hv,
    List.append_assoc]

theorem lstripW_cons_of_head {c : Char} {t : List Char} (h : isPySpace c = false) :
    lstripW (c :: t) = c :: t := by
  unfold lstripW
  rw [List.dropWhile_cons_of_neg (by simp [h])]

/-- A prefix of a stripped list whose head is not whitespace is a prefix of
the list itself. -/
theorem isPrefixB_stripW_to_self {p : List Char} {c : Char} {t : List Char}
    (hc : isPySpace c = false)
    (h : isPrefixB p (stripW (c :: t)) = true) : isPrefixB p (c :: t) = true := by
  rw [stripW, lstripW_cons_of_head hc] at h
  exact isPrefixB_of_rstripW h

theorem joinWithSpace_head (c : Char) (xr : List Char) (rest : List (List Char)) :
    ∃ t, joinWithSpace ((c :: xr) :: rest) = c :: t := by
  cases rest with
  | nil => exact ⟨xr, rfl⟩
  | cons y ys => exact ⟨xr ++ ' ' :: joinWithSpace (y :: ys), rfl⟩

/-! ## Scan-loop facts -/

/-- Without any anchor position, `capture_join_command` never becomes true
and the buffer is left untouched. -/
theorem scanJoin_no_anchor : ∀ (lines buf : List (List Char)),
    hasAnchorB lines = false → scanJoin lines false buf = buf := by
  intro lines
  induction lines with
  | nil => intro buf _; rfl
  | cons line rest ih =>
    intro buf h
    have h1 : anchorCondB line rest = false := by
      cases hx : anchorCondB line rest
      · rfl
      · simp [hasAnchorB, hx] at h
    have h2 : hasAnchorB rest = false := by
      cases hx : hasAnchorB rest
      · rfl
      · simp [hasAnchorB, hx] at h
    simpa [scanJoin, h1] using ih buf h2

theorem mem_bufAppend {x p : List Char} {buf : List (List Char)}
    (hx : x ∈ (if p.isEmpty then buf else buf ++ [p])) :
    x ∈ buf ∨ (x = p ∧ p ≠ []) := by
  by_cases hp : p.isEmpty
  · rw [if_pos hp] at hx
    exact Or.inl hx
  · rw [if_neg hp] at hx
    rcases List.mem_append.mp hx with h | h
    · exact Or.inl h
    · refine Or.inr ⟨List.mem_singleton.mp h, fun hnil => hp ?_⟩
      rw [hnil]; rfl

/-- Every line the scan buffer ever holds is either an initial buffer entry
or the nonempty processed form of some scanned line. -/
theorem scanJoin_mem : ∀ (lines : List (List Char)) (capture : Bool)
    (buf : List (List Char)) (x : List Char), x ∈ scanJoin lines capture buf →
    x ∈ buf ∨ ∃ l, l ∈ lines ∧ x = processLine l ∧ x ≠ [] := by
  intro lines
  induction lines with
  | nil => intro capture buf x hx; exact Or.inl hx
  | cons line rest ih =>
    intro capture buf x hx
    have hstep : ∀ {b : List (List Char)} {c : Bool}, x ∈ scanJoin rest c b →
        x ∈ b ∨ ∃ l, l ∈ line :: rest ∧ x = processLine l ∧ x ≠ [] := by
      intro b c h
      rcases ih c b x h with h1 | ⟨l, hl, hpl, hne⟩
      · exact Or.inl h1
      · exact Or.inr ⟨l, List.mem_cons_of_mem _ hl, hpl, hne⟩
    have hbuf1 : x ∈ (if (processLine line).isEmpty then buf
        else buf ++ [processLine line]) →
        x ∈ buf ∨ ∃ l, l ∈ line :: rest ∧ x = processLine l ∧ x ≠ [] := by
      intro h
      rcases mem_bufAppend h with h1 | ⟨rfl, hne⟩
      · exact Or.inl h1
      · exact Or.inr ⟨line, List.mem_cons_self _ _, rfl, hne⟩
    simp only [scanJoin] at hx
    by_cases hc1 : (if anchorCondB line rest = true then true else capture) = true
    case neg =>
      rw [if_neg hc1] at hx
      rcases hstep hx with h1 | h2
      · exact Or.inl h1
      · exact Or.inr h2
    case pos =>
      rw [if_pos hc1] at hx
      by_cases hh : containsB optHash line = true
      · rw [if_pos hh] at hx
        exact hbuf1 hx
      · rw [if_neg hh] at hx
        by_cases hcond2 : (!isSuffixB backslashWord (stripW line) &&
            decide (1 < (if (processLine line).isEmpty = true then buf
              else buf ++ [processLine line]).length)) = true
        · rw [if_pos hcond2] at hx
          cases rest with
          | nil =>
            dsimp only at hx
            rcases hstep hx with h1 | h2
            · exact hbuf1 h1
            · exact Or.inr h2
          | cons next tail =>
            dsimp only at hx
            by_cases hc3 : (containsB kwJoin next || !isPrefixB optStart (stripW next)) = true
            · rw [if_pos hc3] at hx
              by_cases hany : ((if (processLine line).isEmpty = true then buf
                  else buf ++ [processLine line]).any fun l => containsB optHash l) = true
              · rw [if_pos hany] at hx
                exact hbuf1 hx
              · rw [if_neg hany] at hx
                rcases hstep hx with h1 | h2
                · exact absurd h1 (List.not_mem_nil x)
                · exact Or.inr h2
            · rw [if_neg hc3] at hx
              rcases hstep hx with h1 | h2
              · exact hbuf1 h1
              · exact Or.inr h2
        · rw [if_neg hcond2] at hx
          rcases hstep hx with h1 | h2
          · exact hbuf1 h1
          · exact Or.inr h2

/-! ## Pipeline-runner facts -/

/-- Every timeout handed to the channel by the stage loop is the one
computed by line 280 for that command. -/
theorem execStage_trace_mem (env : RemoteEnv) :
    ∀ (cmds : List (List Char)) (n : Nat) (c : List Char) (t : Nat),
      (c, t) ∈ (execStage env n cmds).1 → t = cmd_timeout c := by
  intro cmds
  induction cmds with
  | nil => intro n c t h; simp [execStage] at h
  | cons cmd rest ih =>
    intro n c t h
    cases hrun : run_remote_command env cmd (cmd_timeout cmd) with
    | error e =>
      simp only [execStage, hrun] at h
      have hh := List.mem_singleton.mp h
      have h1 : c = cmd := congrArg Prod.fst hh
      have h2 : t = cmd_timeout cmd := congrArg Prod.snd hh
      rw [h2, h1]
    | ok v =>
      simp only [execStage, hrun] at h
      rcases List.mem_cons.mp h with hh | hh
      · have h1 : c = cmd := congrArg Prod.fst hh
        have h2 : t = cmd_timeout cmd := congrArg Prod.snd hh
        rw [h2, h1]
      · exact ih (n + 1) c t hh

/-- Characterization of a failing stage run started at enumerate index `n`:
the failure happens at some list position `k`, every earlier step succeeded,
and exactly the steps up to and including `k` were handed to the channel. -/
theorem execStage_error_spec (env : RemoteEnv) :
    ∀ (cmds : List (List Char)) (n i : Nat) (e : RemoteError),
      (execStage env n cmds).2 = Except.error (i, e) →
      ∃ k, i = n + k ∧ k < cmds.length ∧
        run_remote_command env (cmds.getD k []) (cmd_timeout (cmds.getD k []))
          = Except.error e ∧
        (∀ j, j < k → ∃ v, run_remote_command env (cmds.getD j [])
          (cmd_timeout (cmds.getD j [])) = Except.ok v) ∧
        (execStage env n cmds).1.map Prod.fst = cmds.take (k + 1) := by
  intro cmds
  induction cmds with
  | nil => intro n i e h; simp [execStage] at h
  | cons cmd rest ih =>
    intro n i e h
    cases hrun : run_remote_command env cmd (cmd_timeout cmd) with
    | error e0 =>
      simp only [execStage, hrun] at h
      have hne : (n, e0) = (i, e) := by
        injection h
      have hin : n = i := congrArg Prod.fst hne
      have hee : e0 = e := congrArg Prod.snd hne
      refine ⟨0, by omega, by simp, ?_, ?_, ?_⟩
      · rw [List.getD_cons_zero, ← hee]
        exact hrun
      · intro j hj; omega
      · simp only [execStage, hrun]
        simp
    | ok v =>
      simp only [execStage, hrun] at h
      obtain ⟨k, hk1, hk2, hk3, hk4, hk5⟩ := ih (n + 1) i e h
      refine ⟨k + 1, by omega, by simp only [List.length_cons]; omega, ?_, ?_, ?_⟩
      · rw [List.getD_cons_succ]
        exact hk3
      · intro j hj
        cases j with
        | zero =>
          refine ⟨v, ?_⟩
          rw [List.getD_cons_zero]
          exact hrun
        | succ j2 =>
          have hh := hk4 j2 (by omega)
          rw [List.getD_cons_succ]
          exact hh
      · simp only [execStage, hrun, List.map_cons, List.take_succ_cons]
        rw [hk5]

/-! ## Key-distribution facts -/

/-- The Paramiko fallback either leaves the authorized-keys store unchanged
or appends exactly the key, and it appends only when no line of the store
contained the key. -/
theorem copy_fallback_body_cases (w : CopyWorld) (key : List Char) :
    (∃ e, copy_fallback_body w key = Except.error e) ∨
    (∃ b, copy_fallback_body w key = Except.ok (w.store, b)) ∨
    ((∃ b, copy_fallback_body w key = Except.ok (w.store ++ [key], b)) ∧
      w.store.any (fun l => containsB key l) = false) := by
  cases hcon : w.connect with
  | authFail =>
    exact Or.inl ⟨CopyErr.authException, by simp [copy_fallback_body, hcon]⟩
  | sshError =>
    exact Or.inl ⟨CopyErr.sshException, by simp [copy_fallback_body, hcon]⟩
  | otherError =>
    exact Or.inl ⟨CopyErr.otherException, by simp [copy_fallback_body, hcon]⟩
  | ok =>
    cases hp : w.pubKeyReadOk with
    | false =>
      exact Or.inl ⟨CopyErr.otherException, by simp [copy_fallback_body, hcon, hp]⟩
    | true =>
      cases hf : w.store.any (fun l => containsB key l) with
      | true =>
        exact Or.inr (Or.inl ⟨true, by simp [copy_fallback_body, hcon, hp, hf]⟩)
      | false =>
        cases hm : w.mkdirOk with
        | false =>
          exact Or.inr (Or.inl ⟨false, by simp [copy_fallback_body, hcon, hp, hf, hm]⟩)
        | true =>
          cases he : w.echoOk with
          | false =>
            exact Or.inr (Or.inl ⟨false,
              by simp [copy_fallback_body, hcon, hp, hf, hm, he]⟩)
          | true =>
            cases hc1 : w.chmodDirOk with
            | false =>
              exact Or.inr (Or.inr ⟨⟨false,
                by simp [copy_fallback_body, hcon, hp, hf, hm, he, hc1]⟩, rfl⟩)
            | true =>
              cases hc2 : w.chmodFileOk with
              | false =>
                exact Or.inr (Or.inr ⟨⟨false,
                  by simp [copy_fallback_body, hcon, hp, hf, hm, he, hc1, hc2]⟩, rfl⟩)
              | true =>
                exact Or.inr (Or.inr ⟨⟨true,
                  by simp [copy_fallback_body, hcon, hp, hf, hm, he, hc1, hc2]⟩, rfl⟩)

/-- On the fallback path, the resulting store is the old one or the old one
with the key appended (the latter only when no line contained the key). -/
theorem copy_store_cases (w : CopyWorld) (key : List Char)
    (hssh : w.sshCopyId ≠ SshCopyIdOutcome.success) :
    (copy_ssh_key_to_server w key).1 = w.store ∨
    ((copy_ssh_key_to_server w key).1 = w.store ++ [key] ∧
      w.store.any (fun l => containsB key l) = false) := by
  have hbody := copy_fallback_body_cases w key
  unfold copy_ssh_key_to_server
  cases hs : w.sshCopyId with
  | success => exact absurd hs hssh
  | notFound =>
    rcases hbody with ⟨e, he⟩ | ⟨b, hb⟩ | ⟨⟨b, hb⟩, hany⟩
    · rw [he]; exact Or.inl rfl
    · rw [hb]; exact Or.inl rfl
    · rw [hb]; exact Or.inr ⟨rfl, hany⟩
  | failed =>
    rcases hbody with ⟨e, he⟩ | ⟨b, hb⟩ | ⟨⟨b, hb⟩, hany⟩
    · rw [he]; exact Or.inl rfl
    · rw [hb]; exact Or.inl rfl
    · rw [hb]; exact Or.inr ⟨rfl, hany⟩

theorem entryCount_append_self (key : List Char) (store : List (List Char)) :
    entryCount key (store ++ [key]) = entryCount key store + 1 := by
  simp [entryCount, List.countP_append, List.countP_cons]

theorem entryCount_zero_of_not_any {key : List Char} {store : List (List Char)}
    (h : store.any (fun l => containsB key l) = false) : entryCount key store = 0 := by
  rw [entryCount, List.countP_eq_zero]
  intro a ha hpa
  have hak : a = key := of_decide_eq_true hpa
  have htrue : store.any (fun l => containsB key l) = true :=
    List.any_eq_true.mpr ⟨a, ha, by rw [hak]; exact containsB_self key⟩
  rw [htrue] at h
  cases h

/-- A store that contains the key as an entry makes the `grep` check succeed. -/
theorem any_of_entry_mem {key : List Char} {store : List (List Char)}
    (h : key ∈ store) : store.any (fun l => containsB key l) = true :=
  List.any_eq_true.mpr ⟨key, h, containsB_self key⟩

/-! ## Orchestrator facts -/

theorem master_not_mem_sshSurvivors {w : MainWorld} {master : List Char}
    {workers : List (List Char)}
    (h : (w.keyCopyOk master && w.sshTestOk master) = false) :
    master ∉ sshSurvivors w master workers := by
  intro hm
  have h2 : (w.keyCopyOk master && w.sshTestOk master) = true :=
    (List.mem_filter.mp hm).2
  rw [h] at h2
  cases h2

theorem sshMasters_nil_of_not_mem {w : MainWorld} {master : List Char}
    {workers : List (List Char)}
    (h : master ∉ sshSurvivors w master workers) :
    sshMasters w master workers = [] := by
  unfold sshMasters
  simp [h]

theorem provMasters_nil {w : MainWorld} {master : List Char}
    {workers : List (List Char)}
    (hmem : master ∈ sshSurvivors w master workers)
    (hprov : w.provisionOk master = false) :
    provMasters w master workers = [] := by
  have hm1 : sshMasters w master workers = [master] := by
    unfold sshMasters
    simp [hmem]
  have hfail : master ∈ prereqFailed w master workers := by
    unfold prereqFailed
    refine List.mem_filter.mpr ⟨?_, ?_⟩
    · exact List.mem_append.mpr (Or.inl (by rw [hm1]; exact List.mem_singleton_self master))
    · simp [hprov]
  unfold provMasters
  rw [hm1]
  simp [hfail]

/-- Any abort decided before Phase ControlInit produces a fatal outcome with
no join attempted; helper shared by the orchestration claims. -/
theorem mainRun_fatal_of_init_none (w : MainWorld) (master : List Char)
    (workers : List (List Char))
    (h : initialize_master_node w.initOutcome w.kubeconfigOk = none) :
    ∃ st, mainRun w master workers = ⟨some st, [], []⟩ := by
  unfold mainRun
  by_cases h1 : (!w.keygenOk) = true
  · rw [if_pos h1]; exact ⟨_, rfl⟩
  · rw [if_neg h1]
    by_cases h2 : (sshSurvivors w master workers).isEmpty = true
    · rw [if_pos h2]; exact ⟨_, rfl⟩
    · rw [if_neg h2]
      by_cases h3 : (sshMasters w master workers).isEmpty = true
      · rw [if_pos h3]; exact ⟨_, rfl⟩
      · rw [if_neg h3]
        by_cases h4 : (provMasters w master workers).isEmpty = true
        · rw [if_pos h4]; exact ⟨_, rfl⟩
        · rw [if_neg h4]
          rw [h]
          exact ⟨FatalStage.initFailed, rfl⟩

/-! # Claims -/

/-- C1, corrected: in `run_remote_command` a zero exit status returns the
decoded `(stdout, stderr)` pair, while a non-zero exit status is raised as
`subprocess.CalledProcessError` carrying the exit status and both streams
(lines 247-250) — it is not part of the normal result, and the returned
tuple never includes the exit code; authentication and SSH protocol
failures are raised as `ConnectionError`, channel timeouts as
`TimeoutError`. -/
theorem claim_C1_corrected (env : RemoteEnv) (cmd : List Char) (t : Nat) :
    (∀ out err, env cmd t = ChannelOutcome.result out err 0 →
      run_remote_command env cmd t = Except.ok (out, err)) ∧
    (∀ out err s, s ≠ 0 → env cmd t = ChannelOutcome.result out err s →
      run_remote_command env cmd t
        = Except.error (RemoteError.calledProcessError s out err)) ∧
    (env cmd t = ChannelOutcome.authException →
      run_remote_command env cmd t = Except.error RemoteError.connectionError) ∧
    (env cmd t = ChannelOutcome.sshException →
      run_remote_command env cmd t = Except.error RemoteError.connectionError) ∧
    (env cmd t = ChannelOutcome.socketTimeout →
      run_remote_command env cmd t = Except.error RemoteError.timeoutError) := by
  refine ⟨?_, ?_, ?_, ?_, ?_⟩
  · intro out err h
    simp [run_remote_command, h]
  · intro out err s hs h
    simp [run_remote_command, h, hs]
  · intro h
    simp [run_remote_command, h]
  · intro h
    simp [run_remote_command, h]
  · intro h
    simp [run_remote_command, h]

/-- Counterexample to C1 as stated: a command exiting with status 1 is
raised as an error by `run_remote_command`, not returned as part of a
normal result. -/
theorem claim_C1_counterexample :
    run_remote_command envNonZeroExit ("kubectl get nodes".data) 300
      = Except.error (RemoteError.calledProcessError 1 [] ("boom".data)) := rfl

/-- Witness for C1: a concrete zero-exit command returns its streams. -/
theorem claim_C1_witness :
    envAllOk ("echo ready".data) 300 = ChannelOutcome.result ("ok".data) [] 0 ∧
    run_remote_command envAllOk ("echo ready".data) 300
      = Except.ok (("ok".data), ([] : List Char)) :=
  ⟨rfl, (claim_C1_corrected envAllOk ("echo ready".data) 300).1 _ _ rfl⟩

/-- C2, corrected: every successfully terminated buffer yields exactly the
accumulated lines joined with single spaces in order, with `"sudo "`
prepended when the joined string does not already start with `"sudo"`, and
the verbosity flag appended; the result always begins with the
elevated-privilege prefix and ends with the verbosity flag.  (The prefix
need not occur exactly once: a buffer carrying `sudo` elsewhere yields two
occurrences, see the counterexample.) -/
theorem claim_C2_corrected (raw cmd : List Char)
    (h : parseJoinCommand raw = some cmd) :
    cmd = assembleJoinCommand (joinLinesOf raw) ∧
    joinLinesOf raw ≠ [] ∧
    isPrefixB sudoWord cmd = true ∧
    isSuffixB verbosityFlag cmd = true := by
  unfold parseJoinCommand at h
  by_cases hc : ((joinLinesOf raw).isEmpty ||
      !((joinLinesOf raw).any fun l => containsB optHash l)) = true
  · rw [if_pos hc] at h
    cases h
  · rw [if_neg hc] at h
    have hcmd : cmd = assembleJoinCommand (joinLinesOf raw) := (Option.some.inj h).symm
    have hne : joinLinesOf raw ≠ [] := by
      intro hnil
      apply hc
      rw [hnil]
      rfl
    obtain ⟨x, rest, hx⟩ : ∃ x rest, joinLinesOf raw = x :: rest := by
      cases hj : joinLinesOf raw with
      | nil => exact absurd hj hne
      | cons a b => exact ⟨a, b, rfl⟩
    have hxmem : x ∈ joinLinesOf raw := by
      rw [hx]
      exact List.mem_cons_self _ _
    rcases scanJoin_mem _ _ _ _ hxmem with h0 | ⟨l, hl, hpl, hxne⟩
    · exact absurd h0 (List.not_mem_nil x)
    · obtain ⟨c0, xr, hx0⟩ : ∃ c0 xr, x = c0 :: xr := by
        cases hxx : x with
        | nil => exact absurd hxx hxne
        | cons a b => exact ⟨a, b, rfl⟩
      have hc0 : isPySpace c0 = false :=
        processLine_head (l := l) (by rw [← hpl]; exact hx0)
      have hpre : isPrefixB sudoWord (assembleJoinCommand (joinLinesOf raw)) = true := by
        unfold assembleJoinCommand
        by_cases hs : isPrefixB sudoWord (stripW (joinWithSpace (joinLinesOf raw))) = true
        · rw [if_pos hs]
          obtain ⟨t, ht⟩ := joinWithSpace_head c0 xr rest
          have hJ : joinWithSpace (joinLinesOf raw) = c0 :: t := by
            rw [hx, hx0]
            exact ht
          rw [hJ] at hs ⊢
          exact isPrefixB_append_right _ (isPrefixB_stripW_to_self hc0 hs)
        · rw [if_neg hs]
          rw [show sudoWord ++ ' ' :: stripW (joinWithSpace (joinLinesOf raw))
              = sudoWord ++ (' ' :: stripW (joinWithSpace (joinLinesOf raw))) from rfl,
            List.append_assoc]
          exact isPrefixB_self_append _ _
      refine ⟨hcmd, hne, ?_, ?_⟩
      · rw [hcmd]
        exact hpre
      · rw [hcmd]
        unfold assembleJoinCommand
        exact isSuffixB_append_self _ _

/-- Counterexample to C2 as stated: this successfully terminated buffer
yields a command string containing the elevated-privilege prefix at two
positions, not exactly once. -/
theorem claim_C2_counterexample :
    parseJoinCommand c2CounterRaw = some c2CounterCmd ∧
    countOccur sudoWord c2CounterCmd = 2 := ⟨rfl, rfl⟩

/-- Witness for C2 on the spec's synthetic block: the parse succeeds, the
command begins with `sudo`, ends with the verbosity flag, and here the
prefix occurs exactly once. -/
theorem claim_C2_witness :
    parseJoinCommand c2SyntheticRaw = some c2SyntheticCmd ∧
    isPrefixB sudoWord c2SyntheticCmd = true ∧
    isSuffixB verbosityFlag c2SyntheticCmd = true ∧
    countOccur sudoWord c2SyntheticCmd = 1 :=
  ⟨rfl, (claim_C2_corrected c2SyntheticRaw c2SyntheticCmd rfl).2.2.1,
    (claim_C2_corrected c2SyntheticRaw c2SyntheticCmd rfl).2.2.2, rfl⟩

/-- C3, confirmed: an output with no anchor position parses to the
"no directive found" result `none`; any output none of whose lines bears
the CA-cert-hash option parses to `none`; and more generally whenever the
scan ends with a buffer containing no CA-cert-hash line, the parse returns
`none`.  The parse is a total function, so no exception is raised. -/
theorem claim_C3_confirmed (raw : List Char) :
    (hasAnchorB (splitlinesL raw) = false → parseJoinCommand raw = none) ∧
    ((∀ l ∈ splitlinesL raw, containsB optHash l = false) →
      parseJoinCommand raw = none) ∧
    (((joinLinesOf raw).any fun l => containsB optHash l) = false →
      parseJoinCommand raw = none) := by
  refine ⟨?_, ?_, ?_⟩
  · intro h
    have hj : joinLinesOf raw = [] := scanJoin_no_anchor _ _ h
    unfold parseJoinCommand
    rw [hj]
    rfl
  · intro h
    have hany : ((joinLinesOf raw).any fun l => containsB optHash l) = false := by
      cases ha : (joinLinesOf raw).any fun l => containsB optHash l
      · rfl
      · exfalso
        obtain ⟨x, hx, hcx⟩ := List.any_eq_true.mp ha
        rcases scanJoin_mem _ _ _ _ hx with h0 | ⟨l, hl, rfl, hne⟩
        · exact List.not_mem_nil x h0
        · have hcl := containsB_processLine hcx
          rw [h l hl] at hcl
          cases hcl
    unfold parseJoinCommand
    rw [hany]
    simp
  · intro hany
    unfold parseJoinCommand
    rw [hany]
    simp

/-- Witness for C3: a concrete anchor-free output parses to `none`. -/
theorem claim_C3_witness :
    hasAnchorB (splitlinesL noAnchorRaw) = false ∧
    parseJoinCommand noAnchorRaw = none :=
  ⟨rfl, (claim_C3_confirmed noAnchorRaw).1 rfl⟩

/-- C4, confirmed: whenever the control host fails Phase SSH (key copy or
liveness probe) or Phase Provision, the run ends in a
`print_critical_error` abort before the worker-join loop, so no worker join
is attempted and the outcome records no joined worker. -/
theorem claim_C4_confirmed (w : MainWorld) (master : List Char)
    (workers : List (List Char))
    (h : (w.keyCopyOk master && w.sshTestOk master) = false ∨
      w.provisionOk master = false) :
    ∃ st, mainRun w master workers = ⟨some st, [], []⟩ := by
  unfold mainRun
  by_cases h1 : (!w.keygenOk) = true
  · rw [if_pos h1]
    exact ⟨_, rfl⟩
  · rw [if_neg h1]
    by_cases h2 : (sshSurvivors w master workers).isEmpty = true
    · rw [if_pos h2]
      exact ⟨_, rfl⟩
    · rw [if_neg h2]
      by_cases hm : master ∈ sshSurvivors w master workers
      case neg =>
        have h0 : sshMasters w master workers = [] := sshMasters_nil_of_not_mem hm
        rw [if_pos (show (sshMasters w master workers).isEmpty = true by rw [h0]; rfl)]
        exact ⟨_, rfl⟩
      case pos =>
        have hkc : (w.keyCopyOk master && w.sshTestOk master) = true :=
          (List.mem_filter.mp hm).2
        have hprov : w.provisionOk master = false := by
          rcases h with hA | hB
          · rw [hkc] at hA
            cases hA
          · exact hB
        by_cases h3 : (sshMasters w master workers).isEmpty = true
        · rw [if_pos h3]
          exact ⟨_, rfl⟩
        · rw [if_neg h3]
          have hpm : provMasters w master workers = [] := provMasters_nil hm hprov
          rw [if_pos (show (provMasters w master workers).isEmpty = true by rw [hpm]; rfl)]
          exact ⟨_, rfl⟩

/-- Witness for C4: a run whose key distribution fails on every host aborts
with no join attempted. -/
theorem claim_C4_witness :
    ((c4World.keyCopyOk masterIp && c4World.sshTestOk masterIp) = false ∨
      c4World.provisionOk masterIp = false) ∧
    ∃ st, mainRun c4World masterIp [workerIp] = ⟨some st, [], []⟩ :=
  ⟨Or.inl rfl, claim_C4_confirmed c4World masterIp [workerIp] (Or.inl rfl)⟩

/-- C5, confirmed: a failing stage run fails at list index `i` (0-based;
line 283 prints it 1-based as `i+1` of `len`), every step before `i`
succeeded, the step at `i` is the one whose channel call errored (non-zero
exit or transport error), and exactly the steps up to `i` were handed to
the channel — later steps are never executed. -/
theorem claim_C5_confirmed (env : RemoteEnv) (cmds : List (List Char))
    (i : Nat) (e : RemoteError)
    (h : (execute_remote_commands env cmds).2 = Except.error (i, e)) :
    i < cmds.length ∧
    run_remote_command env (cmds.getD i []) (cmd_timeout (cmds.getD i []))
      = Except.error e ∧
    (∀ j, j < i → ∃ v, run_remote_command env (cmds.getD j [])
      (cmd_timeout (cmds.getD j [])) = Except.ok v) ∧
    (execute_remote_commands env cmds).1.map Prod.fst = cmds.take (i + 1) := by
  obtain ⟨k, hk1, hk2, hk3, hk4, hk5⟩ := execStage_error_spec env cmds 0 i e h
  have hik : i = k := by omega
  subst hik
  exact ⟨hk2, hk3, hk4, hk5⟩

/-- Witness for C5: with five steps and the third exiting non-zero, the
stage reports failure at index 2 (0-based) and only steps 1-3 ran. -/
theorem claim_C5_witness :
    (execute_remote_commands envFailStepThree fiveSteps).2
      = Except.error (2, RemoteError.calledProcessError 1 [] ("step failed".data)) ∧
    (execute_remote_commands envFailStepThree fiveSteps).1.map Prod.fst
      = fiveSteps.take 3 :=
  ⟨rfl, (claim_C5_confirmed envFailStepThree fiveSteps 2
    (RemoteError.calledProcessError 1 [] ("step failed".data)) rfl).2.2.2⟩

/-- Helper for C6: line 280's timeout choice agrees with the
max-of-declared-override-and-stage-default rule. -/
theorem cmd_timeout_eq_spec (cmd : List Char) :
    cmd_timeout cmd = spec_step_timeout (declared_step_timeout cmd) 300 := by
  by_cases h : (containsB aptGetWord cmd || containsB aptSpaceWord cmd) = true
  · simp [cmd_timeout, declared_step_timeout, spec_step_timeout, h]
  · simp [cmd_timeout, declared_step_timeout, spec_step_timeout, h]

/-- C6, confirmed: every `(command, timeout)` pair the stage loop hands to
the channel applies the maximum of the step's declared timeout override
(600 s, declared through the apt content of the command per line 279's
comment) and the stage-level default of 300 s. -/
theorem claim_C6_confirmed (env : RemoteEnv) (cmds : List (List Char))
    (c : List Char) (t : Nat)
    (h : (c, t) ∈ (execute_remote_commands env cmds).1) :
    t = spec_step_timeout (declared_step_timeout c) 300 := by
  have ht := execStage_trace_mem env cmds 0 c t h
  rw [ht]
  exact cmd_timeout_eq_spec c

/-- Witness for C6: an apt step is run with timeout 600 = max 600 300. -/
theorem claim_C6_witness :
    (aptUpdateCmd, 600) ∈ (execute_remote_commands envAllOk [aptUpdateCmd]).1 ∧
    600 = spec_step_timeout (declared_step_timeout aptUpdateCmd) 300 := by
  have he : (execute_remote_commands envAllOk [aptUpdateCmd]).1
      = [(aptUpdateCmd, 600)] := rfl
  have hmem : (aptUpdateCmd, 600) ∈ (execute_remote_commands envAllOk [aptUpdateCmd]).1 := by
    rw [he]
    exact List.mem_singleton_self _
  exact ⟨hmem, claim_C6_confirmed envAllOk [aptUpdateCmd] aptUpdateCmd 600 hmem⟩

/-- C7, confirmed, for the Paramiko path of lines 170-196 (taken whenever
`ssh-copy-id` did not succeed): when some line of the authorized-keys store
already contains the key, the call reports success without modifying the
store; and across two consecutive calls with the same key the number of
store entries equal to the key never exceeds max(initial count, 1) — no
duplicate entry is ever created. -/
theorem claim_C7_confirmed :
    (∀ (w : CopyWorld) (key : List Char),
      w.sshCopyId ≠ SshCopyIdOutcome.success →
      w.connect = ConnectOutcome.ok →
      w.pubKeyReadOk = true →
      w.store.any (fun l => containsB key l) = true →
      copy_ssh_key_to_server w key = (w.store, true)) ∧
    (∀ (w1 w2 : CopyWorld) (key : List Char),
      w1.sshCopyId ≠ SshCopyIdOutcome.success →
      w2.sshCopyId ≠ SshCopyIdOutcome.success →
      w2.store = (copy_ssh_key_to_server w1 key).1 →
      entryCount key (copy_ssh_key_to_server w2 key).1
        ≤ max (entryCount key w1.store) 1) := by
  constructor
  · intro w key hssh hcon hpk hany
    cases hs : w.sshCopyId with
    | success => exact absurd hs hssh
    | notFound => simp [copy_ssh_key_to_server, hs, copy_fallback_body, hcon, hpk, hany]
    | failed => simp [copy_ssh_key_to_server, hs, copy_fallback_body, hcon, hpk, hany]
  · intro w1 w2 key h1 h2 hst
    rcases copy_store_cases w1 key h1 with ha | ⟨ha, hany1⟩
    · rcases copy_store_cases w2 key h2 with hb | ⟨hb, hany2⟩
      · rw [hb, hst, ha]
        exact le_max_left _ _
      · rw [hb, hst, ha, entryCount_append_self]
        rw [hst, ha] at hany2
        rw [entryCount_zero_of_not_any hany2]
        exact le_max_right _ _
    · rcases copy_store_cases w2 key h2 with hb | ⟨hb, hany2⟩
      · rw [hb, hst, ha, entryCount_append_self, entryCount_zero_of_not_any hany1]
        exact le_max_right _ _
      · exfalso
        have hkeymem : key ∈ w2.store := by
          rw [hst, ha]
          exact List.mem_append.mpr (Or.inr (List.mem_singleton_self _))
        have htrue := any_of_entry_mem hkeymem
        rw [htrue] at hany2
        cases hany2

/-- Witness for C7: a host whose store already holds the key reports
success with the store unchanged. -/
theorem claim_C7_witness :
    copyWorldPresent.store.any (fun l => containsB keyLine l) = true ∧
    copy_ssh_key_to_server copyWorldPresent keyLine = (copyWorldPresent.store, true) :=
  ⟨rfl, claim_C7_confirmed.1 copyWorldPresent keyLine (by decide) rfl rfl rfl⟩

/-- C8, confirmed: on the Paramiko path every exception raised by the body
— authentication failure, SSH transport failure, or any other exception —
is caught by the handlers of lines 198-206 and converted into a `false`
return with the store untouched, and a failing remote setup command inside
the body likewise yields a `false` return; the function is total and always
returns a plain boolean, never letting an exception past its boundary. -/
theorem claim_C8_confirmed (w : CopyWorld) (key : List Char)
    (hssh : w.sshCopyId ≠ SshCopyIdOutcome.success) :
    (∀ e, copy_fallback_body w key = Except.error e →
      copy_ssh_key_to_server w key = (w.store, false)) ∧
    (w.connect = ConnectOutcome.authFail →
      copy_ssh_key_to_server w key = (w.store, false)) ∧
    (w.connect = ConnectOutcome.sshError →
      copy_ssh_key_to_server w key = (w.store, false)) ∧
    (w.connect = ConnectOutcome.otherError →
      copy_ssh_key_to_server w key = (w.store, false)) ∧
    (w.connect = ConnectOutcome.ok →
      w.store.any (fun l => containsB key l) = false →
      w.pubKeyReadOk = true → w.mkdirOk = false →
      copy_ssh_key_to_server w key = (w.store, false)) := by
  refine ⟨?_, ?_, ?_, ?_, ?_⟩
  · intro e he
    cases hs : w.sshCopyId with
    | success => exact absurd hs hssh
    | notFound => simp [copy_ssh_key_to_server, hs, he]
    | failed => simp [copy_ssh_key_to_server, hs, he]
  · intro hcon
    cases hs : w.sshCopyId with
    | success => exact absurd hs hssh
    | notFound => simp [copy_ssh_key_to_server, hs, copy_fallback_body, hcon]
    | failed => simp [copy_ssh_key_to_server, hs, copy_fallback_body, hcon]
  · intro hcon
    cases hs : w.sshCopyId with
    | success => exact absurd hs hssh
    | notFound => simp [copy_ssh_key_to_server, hs, copy_fallback_body, hcon]
    | failed => simp [copy_ssh_key_to_server, hs, copy_fallback_body, hcon]
  · intro hcon
    cases hs : w.sshCopyId with
    | success => exact absurd hs hssh
    | notFound => simp [copy_ssh_key_to_server, hs, copy_fallback_body, hcon]
    | failed => simp [copy_ssh_key_to_server, hs, copy_fallback_body, hcon]
  · intro hcon hany hpk hmk
    cases hs : w.sshCopyId with
    | success => exact absurd hs hssh
    | notFound =>
      simp [copy_ssh_key_to_server, hs, copy_fallback_body, hcon, hany, hpk, hmk]
    | failed =>
      simp [copy_ssh_key_to_server, hs, copy_fallback_body, hcon, hany, hpk, hmk]

/-- Witness for C8: an authentication failure yields a `false` return with
the store untouched. -/
theorem claim_C8_witness :
    copyWorldAuthFail.connect = ConnectOutcome.authFail ∧
    copy_ssh_key_to_server copyWorldAuthFail keyLine
      = (copyWorldAuthFail.store, false) :=
  ⟨rfl, (claim_C8_confirmed copyWorldAuthFail keyLine (by decide)).2.1 rfl⟩

/-- C9, corrected: whenever `initialize_master_node` yields no directive —
in particular when `kubeadm init` raises a transport error or timeout, when
the captured output yields no parseable join command, and when the
kubeconfig setup fails — the run aborts fatally with no join attempted and
no joined worker.  However a non-zero exit status of the init command is
not by itself fatal: its captured output is still parsed (lines 383-387)
and the run proceeds when a directive is found, see the counterexample. -/
theorem claim_C9_corrected (w : MainWorld) (master : List Char)
    (workers : List (List Char)) :
    (initialize_master_node w.initOutcome w.kubeconfigOk = none →
      ∃ st, mainRun w master workers = ⟨some st, [], []⟩) ∧
    (∀ kc, initialize_master_node InitOutcome.timedOut kc = none) ∧
    (∀ kc, initialize_master_node InitOutcome.connectFailed kc = none) ∧
    (∀ oc, initialize_master_node oc false = none) ∧
    (∀ out, parseJoinCommand out = none →
      initialize_master_node (InitOutcome.completed out) true = none) := by
  refine ⟨mainRun_fatal_of_init_none w master workers, fun kc => rfl, fun kc => rfl,
    ?_, ?_⟩
  · intro oc
    cases oc with
    | completed out =>
      simp only [initialize_master_node, initFinish]
      by_cases he : out.isEmpty = true
      · rw [if_pos he]
      · rw [if_neg he]
        cases parseJoinCommand out <;> simp
    | commandFailed out err =>
      simp only [initialize_master_node, initFinish]
      by_cases he : (out ++ '\n' :: err).isEmpty = true
      · rw [if_pos he]
      · rw [if_neg he]
        cases parseJoinCommand (out ++ '\n' :: err) <;> simp
    | timedOut => rfl
    | connectFailed => rfl
  · intro out hp
    simp only [initialize_master_node, initFinish]
    by_cases he : out.isEmpty = true
    · rw [if_pos he]
    · rw [if_neg he, hp]

/-- Counterexample to C9 as stated: `kubeadm init` exits non-zero
(`commandFailed`), yet the run does not abort — the directive is parsed
from the captured output and the worker join is attempted and succeeds. -/
theorem claim_C9_counterexample :
    c9World.initOutcome
      = InitOutcome.commandFailed goodInitStdout initStderrNoise ∧
    mainRun c9World masterIp [workerIp] = ⟨none, [workerIp], [workerIp]⟩ :=
  ⟨rfl, rfl⟩

/-- Witness for C9: a timed-out init yields no directive and the run aborts
with no join attempted. -/
theorem claim_C9_witness :
    initialize_master_node c9TimeoutWorld.initOutcome c9TimeoutWorld.kubeconfigOk
      = none ∧
    ∃ st, mainRun c9TimeoutWorld masterIp [workerIp] = ⟨some st, [], []⟩ :=
  ⟨rfl, (claim_C9_corrected c9TimeoutWorld masterIp [workerIp]).1 rfl⟩

/-- C10, confirmed: the anchor test of line 410 reads the following line
only behind the `i+1 < len(lines)` guard, so a line containing the
join-invocation keyword that is the last line of the output never becomes
an anchor, and running the scan on a final line with capture off leaves the
buffer untouched; the scan is a total function of the line list, so no
out-of-bounds access exists for any output. -/
theorem claim_C10_confirmed :
    (∀ line : List Char, anchorCondB line [] = false) ∧
    (∀ (line : List Char) (buf : List (List Char)), scanJoin [line] false buf = buf) := by
  constructor
  · intro line
    simp [anchorCondB]
  · intro line buf
    simp [scanJoin, anchorCondB]

end K8sInstaller
